import Mathlib

/-!
Verification of the scene-detection pipeline of `scene_detector.py`.

The pipeline's pure control flow is embedded shallowly:
* the filesystem is an existence oracle `ex : String → Bool`;
* the external `scenedetect` library call (open video, run the content
  detector, collect the scene list and frame rate) is an oracle
  `lib : String → Except String RawDetection`, an `error` result standing
  for an exception raised while opening / decoding / detecting;
* the post-split clip filesystem is an oracle `clipExists : String → Bool`;
* times in seconds are modelled as rationals (the claims only compare them).

Every definition follows the corresponding Python code of
`src/scene_detector.py` line by line; helper functions `pyJoin`, `pyStem`
and `pyReplace` mirror `os.path.join` (posix), `pathlib.Path(...).stem` and
`str.replace`.
-/

/-- Posix `os.path.join(a, b)`: `b` absolute (starting with `/`) wins;
otherwise a `/` is inserted unless `a` is empty or already ends with one. -/
def pyJoin (a b : String) : String :=
  if b.data.head? = some '/' then b
  else if a = "" ∨ a.data.getLast? = some '/' then a ++ b
  else a ++ "/" ++ b

/-- The final path component, `pathlib.Path(p).name` (for paths without a
trailing slash). -/
def pyName (p : String) : String :=
  (p.splitOn "/").getLastD p

/-- `pathlib.Path(p).stem`: the name with its last dot-suffix removed, where
a suffix must start strictly after position 0 and end strictly before the end
of the name. -/
def pyStem (p : String) : String :=
  let n := pyName p
  let parts := n.splitOn "."
  if parts.length ≤ 1 then n
  else
    let base := String.intercalate "." parts.dropLast
    if parts.getLastD "" ≠ "" ∧ base ≠ "" then base else n

/-- Python `f"{n:03d}"` for a natural number: decimal, zero-padded to a
minimum width of 3. -/
def pad3 (n : Nat) : String :=
  if n < 10 then "00" ++ toString n
  else if n < 100 then "0" ++ toString n
  else toString n

/-- Python `str.replace`: replace every non-overlapping occurrence of `pat`,
scanning left to right (character-list worker). -/
def replaceAll (pat repl : List Char) : List Char → List Char
  | [] => []
  | c :: cs =>
    if pat ≠ [] ∧ pat.isPrefixOf (c :: cs) then
      repl ++ replaceAll pat repl (List.drop (pat.length - 1) cs)
    else
      c :: replaceAll pat repl cs
termination_by l => l.length
decreasing_by
  · simp only [List.length_drop, List.length_cons]
    omega
  · simp

/-- Python `s.replace(pat, repl)` on strings (for a non-empty `pat`). -/
def pyReplace (s pat repl : String) : String :=
  String.mk (replaceAll pat.data repl.data s.data)

/-- A scene boundary pair as returned by the external detector:
`(scene[0].get_frames(), scene[1].get_frames(), scene[0].get_seconds(),
scene[1].get_seconds())`. -/
structure RawScene where
  startFrames : Nat
  endFrames : Nat
  startSeconds : Rat
  endSeconds : Rat
deriving DecidableEq

/-- The result of `open_video` + `SceneManager.detect_scenes` +
`get_scene_list` on one video: the scene list and the video's frame rate. -/
structure RawDetection where
  scene_list : List RawScene
  frame_rate : Rat
deriving DecidableEq

/-- One entry of the emitted `scenes` list (`scene_detector.py` lines
49-55). -/
structure Scene where
  scene_id : Nat
  start_frame : Nat
  end_frame : Nat
  start_time : Rat
  end_time : Rat
deriving DecidableEq

/-- The per-video success metadata (`scene_detector.py` lines 58-64). -/
structure VideoMetadata where
  video_path : String
  fps : Rat
  threshold : Int
  num_scenes : Nat
  scenes : List Scene
deriving DecidableEq

/-- A value of the output `videos` mapping: success metadata, or the
`{"error": ..., "video_path": ...}` record built in the `except` branch. -/
inductive VideoEntry where
  | success (md : VideoMetadata)
  | failure (msg : String) (video_path : String)
deriving DecidableEq

/-- The `for i, scene in enumerate(scene_list)` loop of `detect_scenes`
(lines 44-55): scene `i` gets `scene_id = i` and the four boundary fields. -/
def scenesOf (scene_list : List RawScene) : List Scene :=
  scene_list.enum.map fun p =>
    { scene_id := p.1
      start_frame := p.2.startFrames
      end_frame := p.2.endFrames
      start_time := p.2.startSeconds
      end_time := p.2.endSeconds }

/-- The deterministic debug clip path for scene index `i` (0-based):
`os.path.join(os.path.join(debug_output_dir, stem), f"{stem}_scene_{i+1:03d}.mp4")`
(lines 69 and 83). -/
def clipPathOf (debug_output_dir video_path : String) (i : Nat) : String :=
  pyJoin (pyJoin debug_output_dir (pyStem video_path))
    (pyStem video_path ++ "_scene_" ++ pad3 (i + 1) ++ ".mp4")

/-- The metadata record assembled at lines 58-64 from a raw detection. -/
def mdOf (video_path : String) (threshold : Int) (raw : RawDetection) :
    VideoMetadata :=
  { video_path := video_path
    fps := raw.frame_rate
    threshold := threshold
    num_scenes := (scenesOf raw.scene_list).length
    scenes := scenesOf raw.scene_list }

/-- `detect_scenes(video_path, threshold, debug_output_dir)` (lines 19-87).
Returns the metadata together with the list of clip paths that were
annotated in the debug branch; an `error` result models an exception
propagating out (raised by the library oracle `lib`).  The debug branch runs
only when `debug_output_dir` is a truthy string and the scene list is
non-empty; each clip is annotated only if it exists after splitting. -/
def detect_scenes (lib : String → Except String RawDetection)
    (clipExists : String → Bool) (video_path : String) (threshold : Int)
    (debug_output_dir : Option String) :
    Except String (VideoMetadata × List String) := do
  let raw ← lib video_path
  let scenes := scenesOf raw.scene_list
  let metadata : VideoMetadata := mdOf video_path threshold raw
  let annotated : List String :=
    match debug_output_dir with
    | some d =>
      if d ≠ "" ∧ raw.scene_list ≠ [] then
        ((List.range scenes.length).map (clipPathOf d video_path)).filter
          (fun p => clipExists p)
      else []
    | none => []
  return (metadata, annotated)

/-- Python-dict assignment `d[k] = v`: replace in place if the key is
present, else append (insertion order preserved). -/
def dictInsert (d : List (String × VideoEntry)) (k : String) (v : VideoEntry) :
    List (String × VideoEntry) :=
  match d with
  | [] => [(k, v)]
  | (k', v') :: rest =>
    if k' = k then (k, v) :: rest else (k', v') :: dictInsert rest k v

/-- Python-dict lookup `d.get(k)`. -/
def dictLookup (d : List (String × VideoEntry)) (k : String) :
    Option VideoEntry :=
  match d with
  | [] => none
  | (k', v') :: rest => if k' = k then some v' else dictLookup rest k

/-- The keys of the mapping, in order. -/
def dictKeys (d : List (String × VideoEntry)) : List String :=
  d.map Prod.fst

/-- The mutable state of the batch loop of `process_nba_dataset`
(lines 172-206): the `all_metadata` dict, the two counters, and — as pure
instrumentation — the list of video paths on which `detect_scenes` was
invoked ("attempted"). -/
structure BatchState where
  all_metadata : List (String × VideoEntry)
  valid_count : Nat
  processed_count : Nat
  attempted : List String
deriving DecidableEq

/-- The initial batch state. -/
def initState : BatchState := ⟨[], 0, 0, []⟩

/-- Whether a detection result is a success (the `try` body completed). -/
def isOkB : Except String (VideoMetadata × List String) → Bool
  | Except.ok _ => true
  | Except.error _ => false

/-- The entry the loop stores for a manifest record named `name`: the
success metadata from the `try` body (line 195), or on an exception the
`{"error": ..., "video_path": ...}` record of the `except` branch
(lines 201-206).  `detect_scenes` is a pure function of the path, so every
occurrence of the same filename produces the same entry. -/
def recordOf (lib : String → Except String RawDetection)
    (clipExists : String → Bool) (video_dir : String) (threshold : Int)
    (dbgDir : Option String) (name : String) : VideoEntry :=
  match detect_scenes lib clipExists (pyJoin video_dir name) threshold dbgDir with
  | Except.ok (md, _) => VideoEntry.success md
  | Except.error e => VideoEntry.failure e (pyJoin video_dir name)

/-- One loop-body step on an existing, attempted video (the `try`/`except`
of lines 189-206, both branches folded through `recordOf` / `isOkB`): store
the entry under the filename key, bump `valid_count` (line 183), bump
`processed_count` exactly when detection succeeded (line 196), and record
the attempt. -/
def stepState (lib : String → Except String RawDetection)
    (clipExists : String → Bool) (video_dir : String) (threshold : Int)
    (dbgDir : Option String) (item : String) (st : BatchState) : BatchState :=
  { all_metadata :=
      dictInsert st.all_metadata item
        (recordOf lib clipExists video_dir threshold dbgDir item)
    valid_count := st.valid_count + 1
    processed_count := st.processed_count +
      (if isOkB (detect_scenes lib clipExists (pyJoin video_dir item)
          threshold dbgDir) = true then 1 else 0)
    attempted := st.attempted ++ [pyJoin video_dir item] }

/-- The `for item in data` loop (lines 176-206): skip missing files, break
in debug mode once `processed_count >= debug_limit` (after the `valid_count`
increment of line 183), otherwise process the item via `stepState`. -/
def processItems (ex : String → Bool) (lib : String → Except String RawDetection)
    (clipExists : String → Bool) (video_dir : String) (threshold : Int)
    (debug_mode : Bool) (debug_limit : Int) (dbgDir : Option String) :
    List String → BatchState → BatchState
  | [], st => st
  | item :: rest, st =>
    if ex (pyJoin video_dir item) = false then
      processItems ex lib clipExists video_dir threshold debug_mode debug_limit
        dbgDir rest st
    else if debug_mode = true ∧ (st.processed_count : Int) ≥ debug_limit then
      { st with valid_count := st.valid_count + 1 }
    else
      processItems ex lib clipExists video_dir threshold debug_mode debug_limit
        dbgDir rest (stepState lib clipExists video_dir threshold dbgDir item st)

/-- The combined output written at the end of `process_nba_dataset`
(lines 215-220). -/
structure OutputData where
  threshold : Int
  total_videos : Nat
  debug_mode : Bool
  videos : List (String × VideoEntry)
deriving DecidableEq

/-- `process_nba_dataset` (lines 145-225) after the manifest has been
loaded: run the loop and assemble the output, with
`total_videos = processed_count if debug_mode else valid_count`.  The final
batch state is returned alongside for the statements about counters and
attempts. -/
def process_nba_dataset (ex : String → Bool)
    (lib : String → Except String RawDetection) (clipExists : String → Bool)
    (data : List String) (video_dir : String) (threshold : Int)
    (debug_mode : Bool) (debug_limit : Int) (debug_output_dir : Option String) :
    OutputData × BatchState :=
  let dbgDir : Option String :=
    if debug_mode then some (debug_output_dir.getD "./debug_scenes") else none
  let st := processItems ex lib clipExists video_dir threshold debug_mode
    debug_limit dbgDir data initState
  ({ threshold := threshold
     total_videos := if debug_mode then st.processed_count else st.valid_count
     debug_mode := debug_mode
     videos := st.all_metadata }, st)

/-- The command-line arguments of `main` (lines 229-239). -/
structure MainArgs where
  data_path : String
  video_dir : String
  global_path : String
  output_path : String
  threshold : Int
  debug : Bool
  debug_limit : Int
  debug_output : Option String

/-- `data_path = os.path.join(args.global_path, args.data_path)` (line 242). -/
def resolvedDataPath (a : MainArgs) : String :=
  pyJoin a.global_path a.data_path

/-- Lines 243-246: an absolute `--video-dir` (starting with `/`) is used
as-is, otherwise it is joined under the global path. -/
def resolvedVideoDir (a : MainArgs) : String :=
  if a.video_dir.data.head? = some '/' then a.video_dir
  else pyJoin a.global_path a.video_dir

/-- `main` (lines 228-274).  `loadManifest` models `json.load` on the data
file (may raise), `writeRes` models the final `json.dump` (may raise); both
exceptions are caught by the `try`/`except` of `main`.  Returns the exit
code together with the list of outputs handed to the writer (empty exactly
when the writer was never invoked). -/
def mainRun (ex : String → Bool) (lib : String → Except String RawDetection)
    (clipExists : String → Bool)
    (loadManifest : String → Except String (List String))
    (writeRes : Except String Unit) (a : MainArgs) : Nat × List OutputData :=
  let dataPath := resolvedDataPath a
  let videoDir := resolvedVideoDir a
  if ex dataPath = false then (1, [])
  else if ex videoDir = false then (1, [])
  else
    match loadManifest dataPath with
    | Except.error _ => (1, [])
    | Except.ok data =>
      let out := (process_nba_dataset ex lib clipExists data videoDir
        a.threshold a.debug a.debug_limit a.debug_output).1
      match writeRes with
      | Except.ok _ => (0, [out])
      | Except.error _ => (1, [out])

/-! ### File-system trace model of `annotate_scene_clip` (lines 90-142)

The claim about annotation is about what is on disk at each instant, so the
function is modelled as the sequence of file-system operations it performs:
open a `cv2.VideoWriter` on the temp path (creating an empty file), write
each frame to it, and finally `os.replace` the temp path over the clip
path. -/

/-- Content of a file touched by annotation: the original clip, or an
annotated output with `k` frames written so far. -/
inductive ClipFile where
  | origClip
  | annoFrames (k : Nat)
deriving DecidableEq

/-- One file-system operation. -/
inductive FsOp where
  | create (p : String)
  | writeFrame (p : String)
  | rename (src dst : String)
deriving DecidableEq

/-- Effect of one operation on the file system (a partial map from paths to
contents).  `rename` is the atomic `os.replace`. -/
def applyOp (fs : String → Option ClipFile) : FsOp → String → Option ClipFile
  | FsOp.create p, q => if q = p then some (ClipFile.annoFrames 0) else fs q
  | FsOp.writeFrame p, q =>
    if q = p then
      match fs p with
      | some (ClipFile.annoFrames k) => some (ClipFile.annoFrames (k + 1))
      | other => other
    else fs q
  | FsOp.rename src dst, q =>
    if q = dst then fs src else if q = src then none else fs q

/-- Run a sequence of operations. -/
def applyOps (fs : String → Option ClipFile) (ops : List FsOp) :
    String → Option ClipFile :=
  ops.foldl applyOp fs

/-- The temp path of `annotate_scene_clip`:
`clip_path.replace('.mp4', '_annotated.mp4')` (line 105). -/
def tempPathOf (clip_path : String) : String :=
  pyReplace clip_path ".mp4" "_annotated.mp4"

/-- The file-system trace of `annotate_scene_clip(clip_path, ...)` on a clip
with `total` frames: create the writer's output at the temp path, write each
annotated frame to it, then `os.replace(temp_path, clip_path)` (line 142). -/
def annotate_scene_clip (clip_path : String) (total : Nat) : List FsOp :=
  let temp_path := tempPathOf clip_path
  FsOp.create temp_path ::
    (List.replicate total (FsOp.writeFrame temp_path) ++
      [FsOp.rename temp_path clip_path])

/-! ### Dictionary lemmas -/

theorem dictLookup_insert (d : List (String × VideoEntry)) (k k' : String)
    (v : VideoEntry) :
    dictLookup (dictInsert d k v) k' = if k = k' then some v else dictLookup d k' := by
  induction d with
  | nil => simp [dictInsert, dictLookup]
  | cons hd tl ih =>
    obtain ⟨k0, v0⟩ := hd
    by_cases h0 : k0 = k
    · subst h0
      by_cases h1 : k0 = k'
      · subst h1
        simp [dictInsert, dictLookup]
      · simp [dictInsert, dictLookup, h1]
    · by_cases h1 : k0 = k'
      · subst h1
        simp [dictInsert, dictLookup, h0, Ne.symm h0]
      · simp [dictInsert, dictLookup, h0, h1, ih]

theorem mem_dictKeys_insert (d : List (String × VideoEntry)) (k k' : String)
    (v : VideoEntry) :
    k' ∈ dictKeys (dictInsert d k v) ↔ k' = k ∨ k' ∈ dictKeys d := by
  induction d with
  | nil => simp [dictInsert, dictKeys]
  | cons hd tl ih =>
    obtain ⟨k0, v0⟩ := hd
    by_cases h0 : k0 = k
    · subst h0
      simp [dictInsert, dictKeys]
    · simp [dictInsert, dictKeys, h0] at ih ⊢
      tauto

theorem dictInsert_length_le (d : List (String × VideoEntry)) (k : String)
    (v : VideoEntry) :
    (dictInsert d k v).length ≤ d.length + 1 := by
  induction d with
  | nil => simp [dictInsert]
  | cons hd tl ih =>
    obtain ⟨k0, v0⟩ := hd
    by_cases h0 : k0 = k
    · simp [dictInsert, h0]
    · simp only [dictInsert, if_neg h0, List.length_cons]
      omega

/-! ### Length lemmas for `replaceAll`, giving distinctness of the
annotation temp path -/

theorem replaceAll_length_ge (pat repl : List Char)
    (h : pat.length ≤ repl.length) :
    ∀ (n : Nat) (l : List Char), l.length ≤ n →
      l.length ≤ (replaceAll pat repl l).length := by
  intro n
  induction n with
  | zero =>
    intro l hl
    have : l = [] := List.length_eq_zero.mp (Nat.le_zero.mp hl)
    subst this
    simp [replaceAll]
  | succ n ih =>
    intro l hl
    match l with
    | [] => simp [replaceAll]
    | c :: cs =>
      rw [replaceAll]
      split
      · rename_i hcond
        have hp : pat ≠ [] := hcond.1
        have hplen : 1 ≤ pat.length := by
          cases pat with
          | nil => exact absurd rfl hp
          | cons a as => simp
        have hdrop : (List.drop (pat.length - 1) cs).length ≤ n := by
          simp only [List.length_drop]
          have : cs.length ≤ n := by simpa using Nat.succ_le_succ_iff.mp hl
          omega
        have hrec := ih (List.drop (pat.length - 1) cs) hdrop
        simp only [List.length_append, List.length_drop] at hrec ⊢
        simp only [List.length_cons]
        omega
      · rename_i hcond
        have hcs : cs.length ≤ n := by simpa using Nat.succ_le_succ_iff.mp hl
        have hrec := ih cs hcs
        simp only [List.length_cons]
        omega

theorem replaceAll_length_gt (pat repl : List Char) (hp : pat ≠ [])
    (h : pat.length < repl.length) :
    ∀ (n : Nat) (l a b : List Char), l.length ≤ n → l = a ++ pat ++ b →
      l.length < (replaceAll pat repl l).length := by
  intro n
  induction n with
  | zero =>
    intro l a b hl hab
    have h0 : l = [] := List.length_eq_zero.mp (Nat.le_zero.mp hl)
    subst h0
    have h1 := List.append_eq_nil.mp hab.symm
    have h2 := List.append_eq_nil.mp h1.1
    exact absurd h2.2 hp
  | succ n ih =>
    intro l a b hl hab
    match l with
    | [] =>
      have h1 := List.append_eq_nil.mp hab.symm
      have h2 := List.append_eq_nil.mp h1.1
      exact absurd h2.2 hp
    | c :: cs =>
      rw [replaceAll]
      split
      · rename_i hcond
        have hpre : pat <+: (c :: cs) := List.isPrefixOf_iff_prefix.mp hcond.2
        have hlen : pat.length ≤ cs.length + 1 := by
          have := hpre.length_le
          simpa using this
        have hplen : 1 ≤ pat.length := by
          cases pat with
          | nil => exact absurd rfl hp
          | cons x xs => simp
        have hrec := replaceAll_length_ge pat repl (Nat.le_of_lt h)
          (List.drop (pat.length - 1) cs).length (List.drop (pat.length - 1) cs)
          (Nat.le_refl _)
        have hdl : (List.drop (pat.length - 1) cs).length =
            cs.length - (pat.length - 1) := List.length_drop _ _
        simp only [List.length_cons, List.length_append]
        omega
      · rename_i hcond
        have hnpre : ¬ pat.isPrefixOf (c :: cs) = true := by
          intro hx
          exact hcond ⟨hp, hx⟩
        have ha : a ≠ [] := by
          intro ha0
          subst ha0
          simp only [List.nil_append] at hab
          have : pat <+: (c :: cs) := ⟨b, hab.symm⟩
          exact hnpre (List.isPrefixOf_iff_prefix.mpr this)
        match a, hab with
        | a0 :: a', hab =>
          have hcs : cs = a' ++ pat ++ b := by
            simpa using congrArg List.tail hab
          have hcslen : cs.length ≤ n := by
            simpa using Nat.succ_le_succ_iff.mp hl
          have hrec := ih cs a' b hcslen hcs
          simp only [List.length_cons]
          omega

theorem tempPathOf_ne (s : String) : tempPathOf (s ++ ".mp4") ≠ s ++ ".mp4" := by
  intro heq
  have hdata : (tempPathOf (s ++ ".mp4")).data = (s ++ ".mp4").data :=
    congrArg String.data heq
  have hrepr : (s ++ ".mp4").data = s.data ++ (".mp4".data) ++ [] := by
    simp
  have hgt := replaceAll_length_gt (".mp4".data) ("_annotated.mp4".data)
    (by decide) (by decide) (s ++ ".mp4").data.length (s ++ ".mp4").data
    s.data [] (Nat.le_refl _) hrepr
  have hX : replaceAll (".mp4".data) ("_annotated.mp4".data)
      ((s ++ ".mp4").data) = (s ++ ".mp4").data := hdata
  have hlen := congrArg List.length hX
  omega

/-! ### File-system trace lemmas for the annotation claim -/

theorem applyOps_append (fs : String → Option ClipFile) (ops1 ops2 : List FsOp) :
    applyOps fs (ops1 ++ ops2) = applyOps (applyOps fs ops1) ops2 := by
  simp [applyOps, List.foldl_append]

theorem applyOps_writes_other (t : String) :
    ∀ (n : Nat) (fs : String → Option ClipFile) (q : String), q ≠ t →
      applyOps fs (List.replicate n (FsOp.writeFrame t)) q = fs q := by
  intro n
  induction n with
  | zero => intro fs q _; simp [applyOps]
  | succ n ih =>
    intro fs q hq
    simp only [List.replicate_succ, applyOps, List.foldl_cons]
    have := ih (applyOp fs (FsOp.writeFrame t)) q hq
    simp only [applyOps] at this
    rw [this]
    simp [applyOp, hq]

theorem applyOps_writes_self (t : String) :
    ∀ (n : Nat) (fs : String → Option ClipFile) (k : Nat),
      fs t = some (ClipFile.annoFrames k) →
      applyOps fs (List.replicate n (FsOp.writeFrame t)) t =
        some (ClipFile.annoFrames (k + n)) := by
  intro n
  induction n with
  | zero => intro fs k hk; simpa [applyOps] using hk
  | succ n ih =>
    intro fs k hk
    simp only [List.replicate_succ, applyOps, List.foldl_cons]
    have hstep : applyOp fs (FsOp.writeFrame t) t =
        some (ClipFile.annoFrames (k + 1)) := by
      simp [applyOp, hk]
    have := ih (applyOp fs (FsOp.writeFrame t)) (k + 1) hstep
    simp only [applyOps] at this
    rw [this]
    ring_nf

theorem applyOp_create_other (fs : String → Option ClipFile) (t q : String)
    (hq : q ≠ t) : applyOp fs (FsOp.create t) q = fs q := by
  simp [applyOp, hq]

/-! ### Batch loop lemmas -/

theorem processItems_keys_exist (ex : String → Bool)
    (lib : String → Except String RawDetection) (clipExists : String → Bool)
    (video_dir : String) (threshold : Int) (debug_mode : Bool)
    (debug_limit : Int) (dbgDir : Option String) :
    ∀ (data : List String) (st : BatchState),
      (∀ k ∈ dictKeys st.all_metadata, ex (pyJoin video_dir k) = true) →
      ∀ k ∈ dictKeys (processItems ex lib clipExists video_dir threshold
          debug_mode debug_limit dbgDir data st).all_metadata,
        ex (pyJoin video_dir k) = true := by
  intro data
  induction data with
  | nil =>
    intro st hst
    rw [processItems]
    exact hst
  | cons item rest ih =>
    intro st hst
    rw [processItems]
    cases hex : ex (pyJoin video_dir item) with
    | false =>
      rw [if_pos rfl]
      exact ih st hst
    | true =>
      rw [if_neg (by decide)]
      split
      · exact hst
      · apply ih
        intro k hk
        simp only [stepState] at hk
        rcases (mem_dictKeys_insert _ _ _ _).mp hk with h | h
        · subst h; exact hex
        · exact hst k h

theorem processItems_lookup_missing (ex : String → Bool)
    (lib : String → Except String RawDetection) (clipExists : String → Bool)
    (video_dir : String) (threshold : Int) (debug_mode : Bool)
    (debug_limit : Int) (dbgDir : Option String) (name : String)
    (hname : ex (pyJoin video_dir name) = false) :
    ∀ (data : List String) (st : BatchState),
      dictLookup (processItems ex lib clipExists video_dir threshold
          debug_mode debug_limit dbgDir data st).all_metadata name =
        dictLookup st.all_metadata name := by
  intro data
  induction data with
  | nil =>
    intro st
    rw [processItems]
  | cons item rest ih =>
    intro st
    rw [processItems]
    cases hex : ex (pyJoin video_dir item) with
    | false =>
      rw [if_pos rfl]
      exact ih st
    | true =>
      have hne : item ≠ name := by
        intro h
        subst h
        rw [hex] at hname
        exact Bool.noConfusion hname
      rw [if_neg (by decide)]
      split
      · rfl
      · rw [ih]
        simp [stepState, dictLookup_insert, hne]

theorem processItems_attempted_exist (ex : String → Bool)
    (lib : String → Except String RawDetection) (clipExists : String → Bool)
    (video_dir : String) (threshold : Int) (debug_mode : Bool)
    (debug_limit : Int) (dbgDir : Option String) :
    ∀ (data : List String) (st : BatchState) (p : String),
      p ∈ (processItems ex lib clipExists video_dir threshold debug_mode
          debug_limit dbgDir data st).attempted →
      p ∈ st.attempted ∨ ex p = true := by
  intro data
  induction data with
  | nil =>
    intro st p hp
    rw [processItems] at hp
    left
    exact hp
  | cons item rest ih =>
    intro st p hp
    rw [processItems] at hp
    cases hex : ex (pyJoin video_dir item) with
    | false =>
      rw [if_pos (by rw [hex])] at hp
      exact ih st p hp
    | true =>
      rw [hex] at hp
      rw [if_neg (by decide)] at hp
      split at hp
      · left; exact hp
      · rcases ih _ p hp with h | h
        · simp only [stepState, List.mem_append, List.mem_singleton] at h
          rcases h with h | h
          · left; exact h
          · right; subst h; exact hex
        · right; exact h

theorem processItems_full_counts (ex : String → Bool)
    (lib : String → Except String RawDetection) (clipExists : String → Bool)
    (video_dir : String) (threshold : Int) (debug_limit : Int)
    (dbgDir : Option String) :
    ∀ (data : List String) (st : BatchState),
      (processItems ex lib clipExists video_dir threshold false debug_limit
          dbgDir data st).valid_count =
        st.valid_count +
          (data.filter (fun v => ex (pyJoin video_dir v))).length ∧
      (processItems ex lib clipExists video_dir threshold false debug_limit
          dbgDir data st).attempted =
        st.attempted ++
          (data.filter (fun v => ex (pyJoin video_dir v))).map
            (pyJoin video_dir) := by
  intro data
  induction data with
  | nil =>
    intro st
    rw [processItems]
    simp
  | cons item rest ih =>
    intro st
    rw [processItems]
    cases hex : ex (pyJoin video_dir item) with
    | false =>
      rw [if_pos rfl]
      have := ih st
      simpa [List.filter_cons, hex] using this
    | true =>
      rw [if_neg (by decide)]
      rw [if_neg (by simp)]
      have hih := ih (stepState lib clipExists video_dir threshold dbgDir item st)
      have hf : List.filter (fun v => ex (pyJoin video_dir v)) (item :: rest) =
          item :: List.filter (fun v => ex (pyJoin video_dir v)) rest := by
        simp [List.filter_cons, hex]
      constructor
      · rw [hih.1, hf]
        simp only [stepState, List.length_cons]
        omega
      · rw [hih.2, hf]
        simp [stepState]

theorem processItems_processed_eq (ex : String → Bool)
    (lib : String → Except String RawDetection) (clipExists : String → Bool)
    (video_dir : String) (threshold : Int) (debug_mode : Bool)
    (debug_limit : Int) (dbgDir : Option String) :
    ∀ (data : List String) (st : BatchState),
      ∃ new : List String,
        (processItems ex lib clipExists video_dir threshold debug_mode
            debug_limit dbgDir data st).attempted = st.attempted ++ new ∧
        (processItems ex lib clipExists video_dir threshold debug_mode
            debug_limit dbgDir data st).processed_count =
          st.processed_count +
            (new.filter (fun p =>
              isOkB (detect_scenes lib clipExists p threshold dbgDir))).length := by
  intro data
  induction data with
  | nil =>
    intro st
    refine ⟨[], ?_, ?_⟩ <;> rw [processItems] <;> simp
  | cons item rest ih =>
    intro st
    rw [processItems]
    cases hex : ex (pyJoin video_dir item) with
    | false =>
      rw [if_pos rfl]
      exact ih st
    | true =>
      rw [if_neg (by decide)]
      split
      · exact ⟨[], by simp, by simp⟩
      · obtain ⟨new', h1, h2⟩ :=
          ih (stepState lib clipExists video_dir threshold dbgDir item st)
        refine ⟨pyJoin video_dir item :: new', ?_, ?_⟩
        · rw [h1]
          simp [stepState]
        · rw [h2]
          simp only [List.filter_cons]
          cases hok : isOkB (detect_scenes lib clipExists
              (pyJoin video_dir item) threshold dbgDir) with
          | false => simp [stepState, hok]
          | true =>
            simp [stepState, hok]
            omega

theorem processItems_debug_le_limit (ex : String → Bool)
    (lib : String → Except String RawDetection) (clipExists : String → Bool)
    (video_dir : String) (threshold : Int) (debug_limit : Int)
    (dbgDir : Option String) :
    ∀ (data : List String) (st : BatchState),
      (st.processed_count : Int) ≤ debug_limit →
      ((processItems ex lib clipExists video_dir threshold true debug_limit
          dbgDir data st).processed_count : Int) ≤ debug_limit := by
  intro data
  induction data with
  | nil =>
    intro st hst
    rw [processItems]
    exact hst
  | cons item rest ih =>
    intro st hst
    rw [processItems]
    cases hex : ex (pyJoin video_dir item) with
    | false =>
      rw [if_pos rfl]
      exact ih st hst
    | true =>
      rw [if_neg (by decide)]
      split
      · exact hst
      · rename_i hlt
        have hlt2 : (st.processed_count : Int) < debug_limit := by
          rcases lt_or_ge (st.processed_count : Int) debug_limit with h | h
          · exact h
          · exact absurd ⟨rfl, h⟩ hlt
        apply ih
        simp only [stepState]
        cases hok : isOkB (detect_scenes lib clipExists
            (pyJoin video_dir item) threshold dbgDir) with
        | false =>
          simp
          omega
        | true =>
          simp
          omega

theorem processItems_full_lookup (ex : String → Bool)
    (lib : String → Except String RawDetection) (clipExists : String → Bool)
    (video_dir : String) (threshold : Int) (debug_limit : Int)
    (dbgDir : Option String) (name : String) :
    ∀ (data : List String) (st : BatchState),
      dictLookup (processItems ex lib clipExists video_dir threshold false
          debug_limit dbgDir data st).all_metadata name =
        if name ∈ data ∧ ex (pyJoin video_dir name) = true then
          some (recordOf lib clipExists video_dir threshold dbgDir name)
        else dictLookup st.all_metadata name := by
  intro data
  induction data with
  | nil =>
    intro st
    rw [processItems]
    simp
  | cons item rest ih =>
    intro st
    rw [processItems]
    cases hex : ex (pyJoin video_dir item) with
    | false =>
      rw [if_pos rfl, ih st]
      by_cases hexn : ex (pyJoin video_dir name) = true
      · have hne : name ≠ item := by
          intro h
          subst h
          rw [hexn] at hex
          exact Bool.noConfusion hex
        by_cases hm : name ∈ rest
        · rw [if_pos ⟨hm, hexn⟩, if_pos ⟨List.mem_cons_of_mem _ hm, hexn⟩]
        · rw [if_neg (fun h => hm h.1), if_neg ?_]
          intro h
          rcases List.mem_cons.mp h.1 with h0 | h0
          · exact hne h0
          · exact hm h0
      · rw [if_neg (fun h => hexn h.2), if_neg (fun h => hexn h.2)]
    | true =>
      rw [if_neg (by decide)]
      rw [if_neg (by simp)]
      rw [ih]
      by_cases hmem : name ∈ rest ∧ ex (pyJoin video_dir name) = true
      · rw [if_pos hmem,
          if_pos ⟨List.mem_cons_of_mem _ hmem.1, hmem.2⟩]
      · rw [if_neg hmem]
        simp only [stepState]
        rw [dictLookup_insert]
        by_cases heq : item = name
        · subst heq
          rw [if_pos rfl, if_pos ⟨List.mem_cons_self _ _, hex⟩]
        · rw [if_neg heq, if_neg ?_]
          intro h
          rcases List.mem_cons.mp h.1 with h0 | h0
          · exact heq h0.symm
          · exact hmem ⟨h0, h.2⟩

theorem processItems_keys_le_valid (ex : String → Bool)
    (lib : String → Except String RawDetection) (clipExists : String → Bool)
    (video_dir : String) (threshold : Int) (debug_mode : Bool)
    (debug_limit : Int) (dbgDir : Option String) :
    ∀ (data : List String) (st : BatchState),
      (processItems ex lib clipExists video_dir threshold debug_mode
          debug_limit dbgDir data st).all_metadata.length + st.valid_count ≤
        st.all_metadata.length +
          (processItems ex lib clipExists video_dir threshold debug_mode
            debug_limit dbgDir data st).valid_count := by
  intro data
  induction data with
  | nil =>
    intro st
    rw [processItems]
  | cons item rest ih =>
    intro st
    rw [processItems]
    cases hex : ex (pyJoin video_dir item) with
    | false =>
      rw [if_pos rfl]
      exact ih st
    | true =>
      rw [if_neg (by decide)]
      split
      · simp
      · have hins := dictInsert_length_le st.all_metadata item
          (recordOf lib clipExists video_dir threshold dbgDir item)
        have hih := ih (stepState lib clipExists video_dir threshold dbgDir item st)
        have hv : (stepState lib clipExists video_dir threshold dbgDir item
            st).valid_count = st.valid_count + 1 := rfl
        have hl : (stepState lib clipExists video_dir threshold dbgDir item
            st).all_metadata =
          dictInsert st.all_metadata item
            (recordOf lib clipExists video_dir threshold dbgDir item) := rfl
        rw [hv, hl] at hih
        omega

/-! ### `scenesOf` lemmas -/

theorem scenesOf_length (l : List RawScene) : (scenesOf l).length = l.length := by
  simp [scenesOf]

theorem scenesOf_get (l : List RawScene) (i : Nat)
    (hi : i < (scenesOf l).length) (hi2 : i < l.length) :
    (scenesOf l).get ⟨i, hi⟩ =
      { scene_id := i
        start_frame := (l.get ⟨i, hi2⟩).startFrames
        end_frame := (l.get ⟨i, hi2⟩).endFrames
        start_time := (l.get ⟨i, hi2⟩).startSeconds
        end_time := (l.get ⟨i, hi2⟩).endSeconds } := by
  simp [scenesOf, List.get_eq_getElem, List.getElem_map, List.getElem_enum]

/-! ### Claim theorems -/

/-- **C3** (error_handling): clip annotation replaces the clip file
atomically.  For a clip path ending in `.mp4` (every clip `detect_scenes`
hands to `annotate_scene_clip` has this shape), the temp path
`clip_path.replace('.mp4', '_annotated.mp4')` is distinct from the clip
path; along every proper prefix of the annotation's file-system trace the
file under the clip path is still the pre-annotation clip; and after the
full trace (ending in the atomic `os.replace`) it is the fully annotated
clip with all `total` frames.  So at every point the clip name holds either
the original or the complete annotated clip, never a partial write. -/
theorem c3_annotate_atomic_replace (s : String) (total : Nat)
    (fs0 : String → Option ClipFile)
    (horig : fs0 (s ++ ".mp4") = some ClipFile.origClip) :
    tempPathOf (s ++ ".mp4") ≠ s ++ ".mp4" ∧
    (∀ k < (annotate_scene_clip (s ++ ".mp4") total).length,
      applyOps fs0 ((annotate_scene_clip (s ++ ".mp4") total).take k)
        (s ++ ".mp4") = some ClipFile.origClip) ∧
    applyOps fs0 (annotate_scene_clip (s ++ ".mp4") total) (s ++ ".mp4") =
      some (ClipFile.annoFrames total) := by
  have hne := tempPathOf_ne s
  have hne2 : s ++ ".mp4" ≠ tempPathOf (s ++ ".mp4") := Ne.symm hne
  refine ⟨hne, ?_, ?_⟩
  · intro k hk
    rw [annotate_scene_clip] at hk ⊢
    simp only [List.length_cons, List.length_append, List.length_replicate,
      List.length_nil] at hk
    match k with
    | 0 => simpa [applyOps] using horig
    | j + 1 =>
      have hj : j ≤ total := by omega
      rw [List.take_succ_cons]
      rw [List.take_append_of_le_length (by simpa using hj)]
      rw [List.take_replicate]
      have hmin : min j total = j := Nat.min_eq_left hj
      rw [hmin]
      simp only [applyOps, List.foldl_cons]
      have hcr := applyOp_create_other fs0 (tempPathOf (s ++ ".mp4"))
        (s ++ ".mp4") hne2
      have hw := applyOps_writes_other (tempPathOf (s ++ ".mp4")) j
        (applyOp fs0 (FsOp.create (tempPathOf (s ++ ".mp4")))) (s ++ ".mp4") hne2
      simp only [applyOps] at hw
      rw [hw, hcr, horig]
  · rw [annotate_scene_clip]
    rw [show FsOp.create (tempPathOf (s ++ ".mp4")) ::
        (List.replicate total (FsOp.writeFrame (tempPathOf (s ++ ".mp4"))) ++
          [FsOp.rename (tempPathOf (s ++ ".mp4")) (s ++ ".mp4")]) =
        (FsOp.create (tempPathOf (s ++ ".mp4")) ::
          List.replicate total (FsOp.writeFrame (tempPathOf (s ++ ".mp4")))) ++
          [FsOp.rename (tempPathOf (s ++ ".mp4")) (s ++ ".mp4")] from rfl]
    rw [applyOps_append]
    have hcr : applyOp fs0 (FsOp.create (tempPathOf (s ++ ".mp4")))
        (tempPathOf (s ++ ".mp4")) = some (ClipFile.annoFrames 0) := by
      simp [applyOp]
    have hws := applyOps_writes_self (tempPathOf (s ++ ".mp4")) total
      (applyOp fs0 (FsOp.create (tempPathOf (s ++ ".mp4")))) 0 hcr
    simp only [applyOps, List.foldl_cons, List.foldl_nil] at hws ⊢
    rw [applyOp]
    rw [if_pos rfl]
    simpa using hws

/-- **C6** (functional_correctness): for a video whose detection succeeds,
the emitted scene list assigns `scene_id = i` (the 0-based position, from
`enumerate`), and — given the external detector's contract (ordered
boundary pairs with `start < end` in frames and seconds, first scene
starting at frame 0 and last scene ending at the video's total frame count,
spec §6 "Collaborator: external change detector") — each scene has
`start_frame < end_frame` and `start_time < end_time`, scenes are ordered
and non-overlapping, and a non-empty list starts at frame 0 and ends at the
total frame count. -/
theorem c6_scene_list_invariants (raw : RawDetection) (total : Nat)
    (hfr : ∀ s ∈ raw.scene_list,
      s.startFrames < s.endFrames ∧ s.startSeconds < s.endSeconds)
    (hord : List.Chain' (fun s t => s.endFrames ≤ t.startFrames ∧
      s.endSeconds ≤ t.startSeconds) raw.scene_list)
    (hhead : ∀ (h0 : 0 < raw.scene_list.length),
      (raw.scene_list.get ⟨0, h0⟩).startFrames = 0)
    (hlast : ∀ (h0 : 0 < raw.scene_list.length),
      (raw.scene_list.get ⟨raw.scene_list.length - 1, by omega⟩).endFrames =
        total) :
    (∀ (i : Nat) (hi : i < (scenesOf raw.scene_list).length),
      ((scenesOf raw.scene_list).get ⟨i, hi⟩).scene_id = i) ∧
    (∀ sc ∈ scenesOf raw.scene_list,
      sc.start_frame < sc.end_frame ∧ sc.start_time < sc.end_time) ∧
    List.Chain' (fun s t => s.end_frame ≤ t.start_frame ∧
      s.end_time ≤ t.start_time) (scenesOf raw.scene_list) ∧
    (∀ (h0 : 0 < raw.scene_list.length),
      ((scenesOf raw.scene_list).get
        ⟨0, by simpa [scenesOf_length] using h0⟩).start_frame = 0 ∧
      ((scenesOf raw.scene_list).get
        ⟨raw.scene_list.length - 1, by
          simp only [scenesOf_length]; omega⟩).end_frame = total) := by
  refine ⟨?_, ?_, ?_, ?_⟩
  · intro i hi
    have hi2 : i < raw.scene_list.length := by
      simpa [scenesOf_length] using hi
    rw [scenesOf_get raw.scene_list i hi hi2]
  · intro sc hsc
    rw [scenesOf] at hsc
    obtain ⟨p, hp, rfl⟩ := List.mem_map.mp hsc
    have hmem : p.2 ∈ raw.scene_list := by
      have hms := List.enum_map_snd raw.scene_list
      rw [← hms]
      exact List.mem_map_of_mem Prod.snd hp
    exact hfr p.2 hmem
  · rw [scenesOf, List.chain'_map]
    have hms := List.enum_map_snd raw.scene_list
    rw [← hms] at hord
    have := (List.chain'_map Prod.snd).mp hord
    exact this
  · intro h0
    constructor
    · rw [scenesOf_get raw.scene_list 0 (by simpa [scenesOf_length] using h0) h0]
      exact hhead h0
    · rw [scenesOf_get raw.scene_list (raw.scene_list.length - 1)
        (by simp only [scenesOf_length]; omega) (by omega)]
      exact hlast h0

/-- Witness for the hypotheses of `c6_scene_list_invariants`: a detector
output with two contiguous scenes over a 50-frame video. -/
theorem c6_scene_list_invariants_witness :
    (∀ (i : Nat)
      (hi : i < (scenesOf [RawScene.mk 0 20 0 2, RawScene.mk 20 50 2 5]).length),
      ((scenesOf [RawScene.mk 0 20 0 2, RawScene.mk 20 50 2 5]).get
        ⟨i, hi⟩).scene_id = i) ∧
    ((scenesOf [RawScene.mk 0 20 0 2, RawScene.mk 20 50 2 5]).get
      ⟨0, by decide⟩).start_frame = 0 := by
  have h := c6_scene_list_invariants
    (RawDetection.mk [RawScene.mk 0 20 0 2, RawScene.mk 20 50 2 5] 60) 50
    (by decide)
    (List.chain'_cons.mpr ⟨by decide, List.chain'_singleton _⟩)
    (by decide) (by decide)
  exact ⟨h.1, (h.2.2.2 (by decide)).1⟩

/-- **C1** (functional_correctness): in debug mode with limit 1 and three
existing videos where the first fails detection, the batch records an error
entry for video 1 (not counted toward the limit), a success entry for
video 2 (the 1st success, after which the loop stops), and never attempts
video 3; `total_videos` is the success count 1.  In addition, in debug mode
the number of successful detections never exceeds a non-negative limit, for
any manifest. -/
theorem c1_debug_limit_counts_successes (ex : String → Bool)
    (lib : String → Except String RawDetection) (ce : String → Bool)
    (video_dir a b c : String) (threshold : Int) (dd : Option String)
    (m : String) (rawB : RawDetection)
    (hab : a ≠ b) (hac : a ≠ c) (hbc : b ≠ c)
    (hexa : ex (pyJoin video_dir a) = true)
    (hexb : ex (pyJoin video_dir b) = true)
    (hexc : ex (pyJoin video_dir c) = true)
    (hliba : lib (pyJoin video_dir a) = Except.error m)
    (hlibb : lib (pyJoin video_dir b) = Except.ok rawB) :
    (process_nba_dataset ex lib ce [a, b, c] video_dir threshold true 1
      dd).2.attempted = [pyJoin video_dir a, pyJoin video_dir b] ∧
    dictLookup (process_nba_dataset ex lib ce [a, b, c] video_dir threshold
      true 1 dd).1.videos a =
      some (VideoEntry.failure m (pyJoin video_dir a)) ∧
    dictLookup (process_nba_dataset ex lib ce [a, b, c] video_dir threshold
      true 1 dd).1.videos b =
      some (VideoEntry.success (mdOf (pyJoin video_dir b) threshold rawB)) ∧
    dictLookup (process_nba_dataset ex lib ce [a, b, c] video_dir threshold
      true 1 dd).1.videos c = none ∧
    (process_nba_dataset ex lib ce [a, b, c] video_dir threshold true 1
      dd).1.total_videos = 1 ∧
    (∀ (data : List String) (dl : Int) (dbg2 : Option String), 0 ≤ dl →
      (((processItems ex lib ce video_dir threshold true dl dbg2 data
        initState).processed_count : Int) ≤ dl)) := by
  refine ⟨?_, ?_, ?_, ?_, ?_, ?_⟩
  · simp [process_nba_dataset, processItems, stepState, recordOf,
      detect_scenes, isOkB, hexa, hexb, hexc, hliba, hlibb, initState]
  · simp [process_nba_dataset, processItems, stepState, recordOf,
      detect_scenes, isOkB, hexa, hexb, hexc, hliba, hlibb, dictInsert,
      dictLookup, initState, hab, Ne.symm hab]
  · simp [process_nba_dataset, processItems, stepState, recordOf,
      detect_scenes, isOkB, hexa, hexb, hexc, hliba, hlibb, dictInsert,
      dictLookup, initState, hab, Ne.symm hab]
  · simp [process_nba_dataset, processItems, stepState, recordOf,
      detect_scenes, isOkB, hexa, hexb, hexc, hliba, hlibb, dictInsert,
      dictLookup, initState, hab, hac, hbc, Ne.symm hac, Ne.symm hbc]
  · simp [process_nba_dataset, processItems, stepState, recordOf,
      detect_scenes, isOkB, hexa, hexb, hexc, hliba, hlibb, initState]
  · intro data dl dbg2 hdl
    apply processItems_debug_le_limit
    simpa [initState] using hdl

/-- **C2** (functional_correctness): `total_videos` is asymmetric by mode.
In the concrete full-mode scenario (manifest `a`, `m`, `b` where `m` is
missing, `a` has 3 scenes and `b` has 1), the output has `total_videos = 2`
and `videos` holds exactly the keys `a` and `b` with `num_scenes` 3 and 1.
In general, in full mode `total_videos` counts every manifest record whose
file existed (including ones whose detection errors), while in debug mode it
counts exactly the successfully detected videos among those attempted. -/
theorem c2_total_videos_mode_asymmetry (ex : String → Bool)
    (lib : String → Except String RawDetection) (ce : String → Bool)
    (video_dir a m b : String) (threshold dl : Int) (dd : Option String)
    (rawA rawB : RawDetection) (hab : a ≠ b)
    (hexa : ex (pyJoin video_dir a) = true)
    (hexm : ex (pyJoin video_dir m) = false)
    (hexb : ex (pyJoin video_dir b) = true)
    (hliba : lib (pyJoin video_dir a) = Except.ok rawA)
    (h3 : rawA.scene_list.length = 3)
    (hlibb : lib (pyJoin video_dir b) = Except.ok rawB)
    (h1 : rawB.scene_list.length = 1) :
    (process_nba_dataset ex lib ce [a, m, b] video_dir threshold false dl
      dd).1.total_videos = 2 ∧
    dictKeys (process_nba_dataset ex lib ce [a, m, b] video_dir threshold
      false dl dd).1.videos = [a, b] ∧
    dictLookup (process_nba_dataset ex lib ce [a, m, b] video_dir threshold
      false dl dd).1.videos a =
      some (VideoEntry.success (mdOf (pyJoin video_dir a) threshold rawA)) ∧
    (mdOf (pyJoin video_dir a) threshold rawA).num_scenes = 3 ∧
    dictLookup (process_nba_dataset ex lib ce [a, m, b] video_dir threshold
      false dl dd).1.videos b =
      some (VideoEntry.success (mdOf (pyJoin video_dir b) threshold rawB)) ∧
    (mdOf (pyJoin video_dir b) threshold rawB).num_scenes = 1 ∧
    (∀ (data : List String),
      (process_nba_dataset ex lib ce data video_dir threshold false dl
        dd).1.total_videos =
        (data.filter (fun v => ex (pyJoin video_dir v))).length) ∧
    (∀ (data : List String) (dl2 : Int),
      ∃ new : List String,
        (process_nba_dataset ex lib ce data video_dir threshold true dl2
          dd).2.attempted = new ∧
        (process_nba_dataset ex lib ce data video_dir threshold true dl2
          dd).1.total_videos =
          (new.filter (fun p => isOkB (detect_scenes lib ce p threshold
            (some (dd.getD "./debug_scenes"))))).length) := by
  refine ⟨?_, ?_, ?_, ?_, ?_, ?_, ?_, ?_⟩
  · simp [process_nba_dataset, processItems, stepState, recordOf,
      detect_scenes, isOkB, hexa, hexm, hexb, hliba, hlibb, initState]
  · simp [process_nba_dataset, processItems, stepState, recordOf,
      detect_scenes, isOkB, hexa, hexm, hexb, hliba, hlibb, dictInsert,
      dictKeys, initState, hab]
  · simp [process_nba_dataset, processItems, stepState, recordOf,
      detect_scenes, isOkB, hexa, hexm, hexb, hliba, hlibb, dictInsert,
      dictLookup, initState, hab, Ne.symm hab]
  · simp [mdOf, scenesOf_length, h3]
  · simp [process_nba_dataset, processItems, stepState, recordOf,
      detect_scenes, isOkB, hexa, hexm, hexb, hliba, hlibb, dictInsert,
      dictLookup, initState, hab, Ne.symm hab]
  · simp [mdOf, scenesOf_length, h1]
  · intro data
    have h := processItems_full_counts ex lib ce video_dir threshold dl
      (if false = true then some (dd.getD "./debug_scenes") else none) data
      initState
    simp only [process_nba_dataset]
    simpa [initState] using h.1
  · intro data dl2
    obtain ⟨new, h1, h2⟩ := processItems_processed_eq ex lib ce video_dir
      threshold true dl2 (some (dd.getD "./debug_scenes")) data initState
    refine ⟨new, ?_, ?_⟩
    · simp only [process_nba_dataset]
      simpa [initState] using h1
    · simp only [process_nba_dataset]
      simpa [initState] using h2

/-- **C4** (error_handling): in full mode, for every manifest record whose
file exists and whose detection raises an exception `e`, the output maps
that filename to the `{error, video_path}` record, and the batch continues:
the attempted list is exactly all existing records in manifest order, so no
per-video failure aborts the loop (and the output structure is still
produced — `process_nba_dataset` is total). -/
theorem c4_per_video_errors_contained (ex : String → Bool)
    (lib : String → Except String RawDetection) (ce : String → Bool)
    (video_dir : String) (threshold dl : Int) (dd : Option String)
    (data : List String) :
    (∀ item ∈ data, ∀ e : String, ex (pyJoin video_dir item) = true →
      lib (pyJoin video_dir item) = Except.error e →
      dictLookup (process_nba_dataset ex lib ce data video_dir threshold
        false dl dd).1.videos item =
        some (VideoEntry.failure e (pyJoin video_dir item))) ∧
    (process_nba_dataset ex lib ce data video_dir threshold false dl
      dd).2.attempted =
      (data.filter (fun v => ex (pyJoin video_dir v))).map
        (pyJoin video_dir) := by
  constructor
  · intro item hitem e hexi hlibi
    simp only [process_nba_dataset]
    rw [processItems_full_lookup]
    rw [if_pos ⟨hitem, hexi⟩]
    simp [recordOf, detect_scenes, hlibi]
  · simp only [process_nba_dataset]
    have h := processItems_full_counts ex lib ce video_dir threshold dl
      (if false = true then some (dd.getD "./debug_scenes") else none) data
      initState
    simpa [initState] using h.2

/-- **C5** (invariants): a manifest record whose resolved path does not
exist is silently excluded in every mode: its filename never becomes a key
of the output `videos` mapping, its path is never attempted, and every key
of the mapping names a file that existed when the batch ran. -/
theorem c5_missing_files_silently_excluded (ex : String → Bool)
    (lib : String → Except String RawDetection) (ce : String → Bool)
    (video_dir : String) (threshold dl : Int) (dm : Bool) (dd : Option String)
    (data : List String) (name : String)
    (hmiss : ex (pyJoin video_dir name) = false) :
    dictLookup (process_nba_dataset ex lib ce data video_dir threshold dm dl
      dd).1.videos name = none ∧
    pyJoin video_dir name ∉
      (process_nba_dataset ex lib ce data video_dir threshold dm dl
        dd).2.attempted ∧
    (∀ k ∈ dictKeys (process_nba_dataset ex lib ce data video_dir threshold
        dm dl dd).1.videos, ex (pyJoin video_dir k) = true) := by
  refine ⟨?_, ?_, ?_⟩
  · simp only [process_nba_dataset]
    rw [processItems_lookup_missing ex lib ce video_dir threshold dm dl _
      name hmiss]
    simp [initState, dictLookup]
  · intro hmem
    simp only [process_nba_dataset] at hmem
    rcases processItems_attempted_exist ex lib ce video_dir threshold dm dl _
      data initState _ hmem with h | h
    · simp [initState] at h
    · rw [hmiss] at h
      exact Bool.noConfusion h
  · intro k hk
    simp only [process_nba_dataset] at hk
    exact processItems_keys_exist ex lib ce video_dir threshold dm dl _
      data initState (by simp [initState, dictKeys]) k hk

/-- **C7** (error_handling): in debug mode the annotator looks for the clip
of 0-based scene `i` at the deterministic path
`{debug_dir}/{stem}/{stem}_scene_{i+1:03d}.mp4`; the annotated-clip list is
exactly the clips of that form that exist after splitting, so a missing clip
is silently skipped (it is not annotated, detection still succeeds) while
every existing clip is still annotated. -/
theorem c7_clip_path_and_skip (lib : String → Except String RawDetection)
    (ce : String → Bool) (video_path : String) (threshold : Int) (d : String)
    (raw : RawDetection) (hlib : lib video_path = Except.ok raw)
    (hd : d ≠ "") (hne : raw.scene_list ≠ []) :
    detect_scenes lib ce video_path threshold (some d) =
      Except.ok (mdOf video_path threshold raw,
        ((List.range (scenesOf raw.scene_list).length).map
          (clipPathOf d video_path)).filter (fun p => ce p)) ∧
    (∀ i : Nat, clipPathOf d video_path i =
      pyJoin (pyJoin d (pyStem video_path))
        (pyStem video_path ++ "_scene_" ++ pad3 (i + 1) ++ ".mp4")) ∧
    (∀ i : Nat, ce (clipPathOf d video_path i) = false →
      clipPathOf d video_path i ∉
        ((List.range (scenesOf raw.scene_list).length).map
          (clipPathOf d video_path)).filter (fun p => ce p)) ∧
    (∀ i < (scenesOf raw.scene_list).length,
      ce (clipPathOf d video_path i) = true →
      clipPathOf d video_path i ∈
        ((List.range (scenesOf raw.scene_list).length).map
          (clipPathOf d video_path)).filter (fun p => ce p)) := by
  refine ⟨?_, ?_, ?_, ?_⟩
  · simp [detect_scenes, hlib, hd, hne]
  · intro i
    rfl
  · intro i hce hmem
    have := (List.mem_filter.mp hmem).2
    rw [hce] at this
    exact Bool.noConfusion this
  · intro i hi hce
    exact List.mem_filter.mpr
      ⟨List.mem_map_of_mem _ (List.mem_range.mpr hi), hce⟩

/-- **C8** (error_handling): `main` exits 0 on success; it exits 1 exactly
when the resolved manifest path or resolved video directory does not exist
(in which case the writer is never invoked — no partial output) or when an
exception escapes the batch (manifest load or output write failing); the
exit code is always 0 or 1. -/
theorem c8_main_exit_codes (ex : String → Bool)
    (lib : String → Except String RawDetection) (ce : String → Bool)
    (loadManifest : String → Except String (List String))
    (writeRes : Except String Unit) (a : MainArgs) :
    ((ex (resolvedDataPath a) = false ∨ ex (resolvedVideoDir a) = false) →
      mainRun ex lib ce loadManifest writeRes a = (1, [])) ∧
    ((mainRun ex lib ce loadManifest writeRes a).1 = 0 ↔
      (ex (resolvedDataPath a) = true ∧ ex (resolvedVideoDir a) = true ∧
        (∃ data, loadManifest (resolvedDataPath a) = Except.ok data) ∧
        writeRes = Except.ok ())) ∧
    ((mainRun ex lib ce loadManifest writeRes a).1 = 1 ↔
      ¬(ex (resolvedDataPath a) = true ∧ ex (resolvedVideoDir a) = true ∧
        (∃ data, loadManifest (resolvedDataPath a) = Except.ok data) ∧
        writeRes = Except.ok ())) := by
  cases hdp : ex (resolvedDataPath a) with
  | false =>
    refine ⟨fun _ => by simp [mainRun, hdp], ?_, ?_⟩ <;>
      simp [mainRun, hdp]
  | true =>
    cases hvd : ex (resolvedVideoDir a) with
    | false =>
      refine ⟨fun _ => by simp [mainRun, hdp, hvd], ?_, ?_⟩ <;>
        simp [mainRun, hdp, hvd]
    | true =>
      refine ⟨fun h => ?_, ?_, ?_⟩
      · rcases h with h | h <;> exact Bool.noConfusion h
      · cases hload : loadManifest (resolvedDataPath a) with
        | error e => simp [mainRun, hdp, hvd, hload]
        | ok data =>
          cases hw : writeRes with
          | error e => simp [mainRun, hdp, hvd, hload, hw]
          | ok u => simp [mainRun, hdp, hvd, hload, hw]
      · cases hload : loadManifest (resolvedDataPath a) with
        | error e => simp [mainRun, hdp, hvd, hload]
        | ok data =>
          cases hw : writeRes with
          | error e => simp [mainRun, hdp, hvd, hload, hw]
          | ok u => simp [mainRun, hdp, hvd, hload, hw]

/-- **C9** (functional_correctness): a filename occurring twice in the
manifest (file existing, detection succeeding) is processed and counted
twice — `valid_count = processed_count = total_videos = 2`, both attempts
recorded — while the `videos` mapping holds a single key for it (whose
value is the entry of the last occurrence; detection being a pure function
of the path, it equals the entry of every occurrence), so `total_videos`
strictly exceeds the number of keys; in general in full mode the number of
keys never exceeds `total_videos`. -/
theorem c9_duplicate_manifest_records (ex : String → Bool)
    (lib : String → Except String RawDetection) (ce : String → Bool)
    (video_dir v : String) (threshold dl : Int) (dd : Option String)
    (raw : RawDetection)
    (hex : ex (pyJoin video_dir v) = true)
    (hlib : lib (pyJoin video_dir v) = Except.ok raw) :
    (process_nba_dataset ex lib ce [v, v] video_dir threshold false dl
      dd).2.valid_count = 2 ∧
    (process_nba_dataset ex lib ce [v, v] video_dir threshold false dl
      dd).2.processed_count = 2 ∧
    (process_nba_dataset ex lib ce [v, v] video_dir threshold false dl
      dd).2.attempted = [pyJoin video_dir v, pyJoin video_dir v] ∧
    dictKeys (process_nba_dataset ex lib ce [v, v] video_dir threshold false
      dl dd).1.videos = [v] ∧
    dictLookup (process_nba_dataset ex lib ce [v, v] video_dir threshold
      false dl dd).1.videos v =
      some (VideoEntry.success (mdOf (pyJoin video_dir v) threshold raw)) ∧
    (process_nba_dataset ex lib ce [v, v] video_dir threshold false dl
      dd).1.total_videos = 2 ∧
    (process_nba_dataset ex lib ce [v, v] video_dir threshold false dl
      dd).1.videos.length = 1 ∧
    (∀ (data : List String),
      (process_nba_dataset ex lib ce data video_dir threshold false dl
        dd).1.videos.length ≤
      (process_nba_dataset ex lib ce data video_dir threshold false dl
        dd).1.total_videos) := by
  refine ⟨?_, ?_, ?_, ?_, ?_, ?_, ?_, ?_⟩
  · simp [process_nba_dataset, processItems, stepState, recordOf,
      detect_scenes, isOkB, hex, hlib, initState]
  · simp [process_nba_dataset, processItems, stepState, recordOf,
      detect_scenes, isOkB, hex, hlib, initState]
  · simp [process_nba_dataset, processItems, stepState, recordOf,
      detect_scenes, isOkB, hex, hlib, initState]
  · simp [process_nba_dataset, processItems, stepState, recordOf,
      detect_scenes, isOkB, hex, hlib, dictInsert, dictKeys, initState]
  · simp [process_nba_dataset, processItems, stepState, recordOf,
      detect_scenes, isOkB, hex, hlib, dictInsert, dictLookup, initState]
  · simp [process_nba_dataset, processItems, stepState, recordOf,
      detect_scenes, isOkB, hex, hlib, initState]
  · simp [process_nba_dataset, processItems, stepState, recordOf,
      detect_scenes, isOkB, hex, hlib, dictInsert, initState]
  · intro data
    simp only [process_nba_dataset]
    have h := processItems_keys_le_valid ex lib ce video_dir threshold false
      dl (if false = true then some (dd.getD "./debug_scenes") else none)
      data initState
    simpa [initState] using h

/-- **C10** (functional_correctness): for every successful detection the
metadata satisfies `num_scenes = scenes.length`; when the detector returns
an empty scene list the result is a success with `num_scenes = 0`,
`scenes = []` and — the debug branch being guarded by a non-empty scene
list — no clip is annotated, while at the batch level (here: debug mode,
limit ≥ 1, singleton manifest) the video still counts as successfully
processed. -/
theorem c10_empty_scene_list_success (ex : String → Bool)
    (lib : String → Except String RawDetection) (ce : String → Bool)
    (video_dir item : String) (threshold debug_limit : Int) (dd : String)
    (raw : RawDetection)
    (hex : ex (pyJoin video_dir item) = true)
    (hlib : lib (pyJoin video_dir item) = Except.ok raw)
    (hempty : raw.scene_list = [])
    (hlim : 1 ≤ debug_limit) :
    detect_scenes lib ce (pyJoin video_dir item) threshold (some dd) =
      Except.ok (mdOf (pyJoin video_dir item) threshold raw, []) ∧
    (mdOf (pyJoin video_dir item) threshold raw).num_scenes = 0 ∧
    (mdOf (pyJoin video_dir item) threshold raw).scenes = [] ∧
    (∀ (lib2 : String → Except String RawDetection) (ce2 : String → Bool)
      (vp2 : String) (th2 : Int) (dbg2 : Option String)
      (md : VideoMetadata) (ann : List String),
      detect_scenes lib2 ce2 vp2 th2 dbg2 = Except.ok (md, ann) →
      md.num_scenes = md.scenes.length) ∧
    (process_nba_dataset ex lib ce [item] video_dir threshold true
      debug_limit (some dd)).2.processed_count = 1 ∧
    (process_nba_dataset ex lib ce [item] video_dir threshold true
      debug_limit (some dd)).1.total_videos = 1 ∧
    dictLookup (process_nba_dataset ex lib ce [item] video_dir threshold
      true debug_limit (some dd)).1.videos item =
      some (VideoEntry.success (mdOf (pyJoin video_dir item) threshold
        raw)) := by
  have hle : ¬debug_limit ≤ 0 := by omega
  refine ⟨?_, ?_, ?_, ?_, ?_, ?_, ?_⟩
  · simp [detect_scenes, hlib, hempty]
  · simp [mdOf, hempty, scenesOf]
  · simp [mdOf, hempty, scenesOf]
  · intro lib2 ce2 vp2 th2 dbg2 md ann hdet
    cases hl : lib2 vp2 with
    | error e =>
      simp [detect_scenes, hl] at hdet
    | ok raw2 =>
      simp [detect_scenes, hl] at hdet
      rw [← hdet.1]
      simp [mdOf]
  · simp [process_nba_dataset, processItems, stepState, recordOf,
      detect_scenes, isOkB, hex, hlib, initState, hle]
  · simp [process_nba_dataset, processItems, stepState, recordOf,
      detect_scenes, isOkB, hex, hlib, initState, hle]
  · simp [process_nba_dataset, processItems, stepState, recordOf,
      detect_scenes, isOkB, hex, hlib, dictInsert, dictLookup, initState,
      hle]

/-! ### Concrete fixtures for the witness theorems -/

/-- Detector output with no scene. -/
def rawW0 : RawDetection := ⟨[], 60⟩

/-- Detector output with one scene. -/
def rawW1 : RawDetection := ⟨[RawScene.mk 0 100 0 2], 60⟩

/-- Detector output with three scenes. -/
def rawW3 : RawDetection :=
  ⟨[RawScene.mk 0 10 0 1, RawScene.mk 10 20 1 2, RawScene.mk 20 30 2 3], 60⟩

/-- A filesystem on which exactly three videos exist. -/
def exW : String → Bool := fun p =>
  p = "/vids/a.mp4" || p = "/vids/b.mp4" || p = "/vids/c.mp4"

/-- A detector that raises on `a.mp4` and succeeds elsewhere. -/
def libW1 : String → Except String RawDetection := fun p =>
  if p = "/vids/a.mp4" then Except.error "boom" else Except.ok rawW1

/-- A detector returning 3 scenes for `a.mp4` and 1 scene elsewhere. -/
def libW2 : String → Except String RawDetection := fun p =>
  if p = "/vids/a.mp4" then Except.ok rawW3 else Except.ok rawW1

/-- A detector returning an empty scene list everywhere. -/
def libW0 : String → Except String RawDetection := fun _ => Except.ok rawW0

/-- A detector returning one scene everywhere. -/
def libOk1 : String → Except String RawDetection := fun _ => Except.ok rawW1

/-- A clip filesystem on which no clip exists. -/
def cwFalse : String → Bool := fun _ => false

/-- A file system holding one original clip. -/
def fsW : String → Option ClipFile := fun p =>
  if p = "/clips/x_scene_001.mp4" then some ClipFile.origClip else none

/-- Arguments whose resolved data path does not exist on `exW`. -/
def argsW : MainArgs :=
  { data_path := "missing.json", video_dir := "/vids", global_path := "/g",
    output_path := "out.json", threshold := 20, debug := false,
    debug_limit := 5, debug_output := none }

/-- Witness for `c1_debug_limit_counts_successes` at the concrete
fixtures. -/
theorem c1_debug_limit_counts_successes_witness :
    (process_nba_dataset exW libW1 cwFalse ["a.mp4", "b.mp4", "c.mp4"]
      "/vids" 20 true 1 none).2.attempted =
      [pyJoin "/vids" "a.mp4", pyJoin "/vids" "b.mp4"] ∧
    (process_nba_dataset exW libW1 cwFalse ["a.mp4", "b.mp4", "c.mp4"]
      "/vids" 20 true 1 none).1.total_videos = 1 := by
  have h := c1_debug_limit_counts_successes exW libW1 cwFalse "/vids" "a.mp4"
    "b.mp4" "c.mp4" 20 none "boom" rawW1 (by decide) (by decide) (by decide)
    (by decide) (by decide) (by decide) rfl rfl
  exact ⟨h.1, h.2.2.2.2.1⟩

/-- Witness for `c2_total_videos_mode_asymmetry` at the concrete
fixtures. -/
theorem c2_total_videos_mode_asymmetry_witness :
    (process_nba_dataset exW libW2 cwFalse ["a.mp4", "m.mp4", "b.mp4"]
      "/vids" 20 false 5 none).1.total_videos = 2 ∧
    dictKeys (process_nba_dataset exW libW2 cwFalse ["a.mp4", "m.mp4",
      "b.mp4"] "/vids" 20 false 5 none).1.videos = ["a.mp4", "b.mp4"] := by
  have h := c2_total_videos_mode_asymmetry exW libW2 cwFalse "/vids" "a.mp4"
    "m.mp4" "b.mp4" 20 5 none rawW3 rawW1 (by decide) (by decide) (by decide)
    (by decide) rfl (by decide) rfl (by decide)
  exact ⟨h.1, h.2.1⟩

/-- Witness for `c3_annotate_atomic_replace` at a concrete clip with two
frames. -/
theorem c3_annotate_atomic_replace_witness :
    applyOps fsW (annotate_scene_clip ("/clips/x_scene_001" ++ ".mp4") 2)
      ("/clips/x_scene_001" ++ ".mp4") = some (ClipFile.annoFrames 2) := by
  have h := c3_annotate_atomic_replace "/clips/x_scene_001" 2 fsW rfl
  exact h.2.2

/-- Witness for `c4_per_video_errors_contained` at the concrete fixtures. -/
theorem c4_per_video_errors_contained_witness :
    dictLookup (process_nba_dataset exW libW1 cwFalse ["a.mp4", "b.mp4"]
      "/vids" 20 false 5 none).1.videos "a.mp4" =
      some (VideoEntry.failure "boom" (pyJoin "/vids" "a.mp4")) := by
  have h := c4_per_video_errors_contained exW libW1 cwFalse "/vids" 20 5 none
    ["a.mp4", "b.mp4"]
  exact h.1 "a.mp4" (by simp) "boom" (by decide) rfl

/-- Witness for `c5_missing_files_silently_excluded` at the concrete
fixtures. -/
theorem c5_missing_files_silently_excluded_witness :
    dictLookup (process_nba_dataset exW libW1 cwFalse ["a.mp4", "m.mp4"]
      "/vids" 20 false 5 none).1.videos "m.mp4" = none := by
  have h := c5_missing_files_silently_excluded exW libW1 cwFalse "/vids" 20 5
    false none ["a.mp4", "m.mp4"] "m.mp4" (by decide)
  exact h.1

/-- Witness for `c7_clip_path_and_skip` at the concrete fixtures (no clip
exists after splitting, so none is annotated while detection succeeds). -/
theorem c7_clip_path_and_skip_witness :
    detect_scenes libOk1 cwFalse "/vids/a.mp4" 20 (some "./debug_scenes") =
      Except.ok (mdOf "/vids/a.mp4" 20 rawW1,
        ((List.range (scenesOf rawW1.scene_list).length).map
          (clipPathOf "./debug_scenes" "/vids/a.mp4")).filter
          (fun p => cwFalse p)) ∧
    clipPathOf "./debug_scenes" "/vids/a.mp4" 0 ∉
      ((List.range (scenesOf rawW1.scene_list).length).map
        (clipPathOf "./debug_scenes" "/vids/a.mp4")).filter
        (fun p => cwFalse p) := by
  have h := c7_clip_path_and_skip libOk1 cwFalse "/vids/a.mp4" 20
    "./debug_scenes" rawW1 rfl (by decide) (by decide)
  exact ⟨h.1, h.2.2.1 0 rfl⟩

/-- Witness for `c8_main_exit_codes` at arguments whose resolved manifest
path does not exist. -/
theorem c8_main_exit_codes_witness :
    mainRun exW libW1 cwFalse (fun _ => Except.ok []) (Except.ok ()) argsW =
      (1, []) := by
  have h := c8_main_exit_codes exW libW1 cwFalse (fun _ => Except.ok [])
    (Except.ok ()) argsW
  exact h.1 (Or.inl (by decide))

/-- Witness for `c9_duplicate_manifest_records` at the concrete fixtures. -/
theorem c9_duplicate_manifest_records_witness :
    (process_nba_dataset exW libW2 cwFalse ["a.mp4", "a.mp4"] "/vids" 20
      false 5 none).1.total_videos = 2 ∧
    (process_nba_dataset exW libW2 cwFalse ["a.mp4", "a.mp4"] "/vids" 20
      false 5 none).1.videos.length = 1 := by
  have h := c9_duplicate_manifest_records exW libW2 cwFalse "/vids" "a.mp4"
    20 5 none rawW3 (by decide) rfl
  exact ⟨h.2.2.2.2.2.1, h.2.2.2.2.2.2.1⟩

/-- Witness for `c10_empty_scene_list_success` at the concrete fixtures. -/
theorem c10_empty_scene_list_success_witness :
    (process_nba_dataset exW libW0 cwFalse ["a.mp4"] "/vids" 20 true 5
      (some "./debug_scenes")).2.processed_count = 1 ∧
    (mdOf (pyJoin "/vids" "a.mp4") 20 rawW0).num_scenes = 0 := by
  have h := c10_empty_scene_list_success exW libW0 cwFalse "/vids" "a.mp4"
    20 5 "./debug_scenes" rawW0 (by decide) rfl rfl (by decide)
  exact ⟨h.2.2.2.2.1, h.2.1⟩
